import Mathlib

/-!
Verification of the `MsgAssembler` cell of `object_recognition_core`
(`src/io/ros/MsgAssembler.cpp`).

The cell is a one-shot marshalling stage: given an optional image context, the
current wall-clock time and a list of recognition pose results, it produces a
pose-array message, a visualization-marker array and a JSON object-ids payload,
while maintaining a process-wide table mapping each object identifier to a
stable first-seen index used to colour the markers.

Modelling conventions: C `float`/`double` values are exact rationals (`ℚ`);
`ros::Time`/`ros::Duration` are rationals; the `static std::map<ObjectId,
unsigned int>` is an association list in insertion order (identical `find`,
`size` and `operator[]` behaviour); the clock read `ros::Time::now()` is an
explicit parameter.
-/

namespace MsgAssembler

/-- Object identifiers (`db::ObjectId`, a string-like key in the source). -/
abbrev ObjectId := String

/-- One recognition result (`common::PoseResult`): an object identifier, a 3×3
rotation matrix `R`, a translation 3-vector `T`, and a string-keyed attribute
lookup used for `"mesh_uri"` and `"name"` (lines 219 and 222 of the source). -/
structure PoseResult where
  object_id : ObjectId
  R : Fin 3 → Fin 3 → ℚ
  T : Fin 3 → ℚ
  attrs : String → String

/-- The process-wide `static std::map<ObjectId, unsigned int>
object_id_to_index_` (line 260), modelled as an association list kept in
insertion order; `find`, `size` and `operator[]` agree with the C++ map. -/
abbrev Table := List (ObjectId × Nat)

/-- Lookup `object_id_to_index_.find(id)` (line 169). -/
def mapFind : Table → ObjectId → Option Nat
  | [], _ => none
  | (k, v) :: rest, id => if k = id then some v else mapFind rest id

/-- Lines 169-170: when `find` misses,
`object_id_to_index_[id] = object_id_to_index_.size()` binds `id` to the size
the table had before the insertion. -/
def insertId (t : Table) (id : ObjectId) : Table :=
  match mapFind t id with
  | some _ => t
  | none => t ++ [(id, t.length)]

/-- Lines 168-170: the pre-pass that registers every pose result's object
identifier before any marker is built. -/
def insertObjectIds (t : Table) (ps : List PoseResult) : Table :=
  ps.foldl (fun acc p => insertId acc p.object_id) t

/-- The C++ `std::map::operator[]` as used on line 209: returns the stored index when
the key is present; otherwise inserts the key with a value-initialised index
`0` and returns that. -/
def mapBracket (t : Table) (id : ObjectId) : Table × Nat :=
  match mapFind t id with
  | some v => (t, v)
  | none => (t ++ [(id, 0)], 0)

/-- Truncation toward zero, the quotient underlying C's `fmodf`. -/
def ratTrunc (q : ℚ) : ℤ := if 0 ≤ q then ⌊q⌋ else -⌊-q⌋

/-- C `fmodf a b = a - b * trunc (a / b)`. -/
def fmodf (a b : ℚ) : ℚ := a - b * (ratTrunc (a / b) : ℚ)

/-- Lines 68-112: the six-sector piecewise-linear HSV→RGB conversion; returns
`(r, g, b)`. -/
def hsv2rgb (h s v : ℚ) : ℚ × ℚ × ℚ :=
  let c := v * s
  let hprime := h / 60
  let x := c * (1 - |fmodf hprime 2 - 1|)
  let rgb : ℚ × ℚ × ℚ :=
    if hprime < 1 then (c, x, 0)
    else if hprime < 2 then (x, c, 0)
    else if hprime < 3 then (0, c, x)
    else if hprime < 4 then (0, x, c)
    else if hprime < 5 then (x, 0, c)
    else if hprime < 6 then (c, 0, x)
    else (0, 0, 0)
  let m := v - c
  (rgb.1 + m, rgb.2.1 + m, rgb.2.2 + m)

/-- A quaternion as the (x, y, z, w) components of `geometry_msgs` orientation. -/
structure Quat where
  x : ℚ
  y : ℚ
  z : ℚ
  w : ℚ
  deriving DecidableEq, Repr

/-- Modelled from the spec: line 189 converts the rotation matrix with Eigen's
`Quaternion<float>` constructor, library code outside this repository; the spec
says "standard rotation-matrix→quaternion conversion; any mathematically
correct implementation is acceptable — the source uses a library routine".
This is the standard trace / largest-diagonal algorithm that Eigen implements,
with `Rat.sqrt` for the square root (exact on perfect squares, which covers
the unit rotation matrices the claims evaluate). -/
def matToQuat (m : Fin 3 → Fin 3 → ℚ) : Quat :=
  let tr := m 0 0 + m 1 1 + m 2 2
  if 0 < tr then
    let t := Rat.sqrt (tr + 1)
    let s := (1 / 2) / t
    { x := (m 2 1 - m 1 2) * s, y := (m 0 2 - m 2 0) * s,
      z := (m 1 0 - m 0 1) * s, w := (1 / 2) * t }
  else
    let i0 : Fin 3 := if m 0 0 < m 1 1 then 1 else 0
    let i : Fin 3 := if m i0 i0 < m 2 2 then 2 else i0
    let j : Fin 3 := i + 1
    let k : Fin 3 := j + 1
    let t := Rat.sqrt (m i i - m j j - m k k + 1)
    let s := (1 / 2) / t
    let coeff : Fin 3 → ℚ := fun n =>
      if n = i then (1 / 2) * t
      else if n = j then (m j i + m i j) * s
      else (m i k + m k i) * s
    { x := coeff 0, y := coeff 1, z := coeff 2, w := (m k j - m j k) * s }

/-- A `geometry_msgs` 3-vector (used for positions and marker scales). -/
structure Vec3 where
  x : ℚ
  y : ℚ
  z : ℚ
  deriving DecidableEq, Repr

/-- A `geometry_msgs::Pose`: position plus orientation quaternion. -/
structure Pose where
  position : Vec3
  orientation : Quat
  deriving DecidableEq, Repr

/-- Message header: frame identifier and timestamp (lines 159-165). The ROS
string field defaults to `""` when left unset. -/
structure Header where
  frame_id : String
  stamp : ℚ
  deriving DecidableEq, Repr

/-- The two marker types the cell emits (lines 201 and 221). -/
inductive MarkerType where
  | MESH_RESOURCE
  | TEXT_VIEW_FACING
  deriving DecidableEq, Repr

/-- The only marker action used (line 202). -/
inductive MarkerAction where
  | ADD
  deriving DecidableEq, Repr

/-- RGBA colour. -/
structure Color where
  r : ℚ
  g : ℚ
  b : ℚ
  a : ℚ
  deriving DecidableEq, Repr

/-- A `visualization_msgs::Marker`, restricted to the fields the cell assigns. -/
structure Marker where
  header : Header
  pose : Pose
  type : MarkerType
  action : MarkerAction
  lifetime : ℚ
  scale : Vec3
  color : Color
  id : Nat
  mesh_resource : String
  text : String
  deriving DecidableEq, Repr

/-- A `geometry_msgs::PoseArray` message: header plus poses. -/
structure PoseArrayMsg where
  header : Header
  poses : List Pose
  deriving DecidableEq, Repr

/-- Lines 180-197: one pose entry — position from the translation `T`,
orientation from the quaternion of the rotation matrix `R`. -/
def poseOf (p : PoseResult) : Pose :=
  { position := { x := p.T 0, y := p.T 1, z := p.T 2 },
    orientation := matToQuat p.R }

/-- Lines 199-220: the mesh marker built for one pose result. `t` is the index
table as it stands when line 209 runs, `mid` the current `marker_id`. The hue
is `(360 / table size) * stored index`, saturation `0.7`, value `1`. -/
def mkMeshMarker (t : Table) (hdr : Header) (mid : Nat) (p : PoseResult) : Marker :=
  let hue := (360 / (t.length : ℚ)) * ((mapBracket t p.object_id).2 : ℚ)
  let rgb := hsv2rgb hue (7 / 10) 1
  { header := hdr, pose := poseOf p, type := MarkerType.MESH_RESOURCE,
    action := MarkerAction.ADD, lifetime := 30,
    scale := { x := 1, y := 1, z := 1 },
    color := { r := rgb.1, g := rgb.2.1, b := rgb.2.2, a := 3 / 4 },
    id := mid, mesh_resource := p.attrs ("mesh_uri"), text := "" }

/-- Lines 221-230: the same `marker` variable is reused for the text marker:
type, text, color, `scale.z` and lifetime are overwritten; pose, header, id
and mesh resource are kept as assigned for the mesh marker. -/
def mkTextMarker (t : Table) (hdr : Header) (mid : Nat) (p : PoseResult) : Marker :=
  let base := mkMeshMarker t hdr mid p
  { base with
    type := MarkerType.TEXT_VIEW_FACING, text := p.attrs ("name"),
    color := { r := 1, g := 1, b := 1, a := 1 },
    scale := { base.scale with z := 3 / 100 }, lifetime := 10 }

/-- Lines 177-232: the main loop. It threads the table through `operator[]`
(line 209), counts `marker_id`, and collects the poses and the interleaved
mesh/text markers in input order. -/
def markerLoop (hdr : Header) : Table → Nat → List PoseResult → Table × List Pose × List Marker
  | t, _, [] => (t, [], [])
  | t, mid, p :: rest =>
    let step := mapBracket t p.object_id
    let out := markerLoop hdr step.1 (mid + 1) rest
    (out.1, poseOf p :: out.2.1,
      mkMeshMarker t hdr mid p :: mkTextMarker t hdr mid p :: out.2.2)

/-- JSON string escaping, character by character: json_spirit escapes the
quote and the backslash (control-character escaping is not needed here). -/
def jsonEscapeList : List Char → List Char
  | [] => []
  | c :: rest =>
    (if c = '"' then ['\\', '"'] else if c = '\\' then ['\\', '\\'] else [c])
      ++ jsonEscapeList rest

/-- Modelled from the spec: `or_json::write` (external library) renders the
array of identifier strings, comma-separated, each in quotes and escaped. -/
def renderIdsChars : List String → List Char
  | [] => []
  | [s] => '"' :: jsonEscapeList s.data ++ ['"']
  | s :: rest => '"' :: jsonEscapeList s.data ++ '"' :: ',' :: renderIdsChars rest

/-- Modelled from the spec: lines 236-248 build and serialize the JSON object
`\x7b"object_ids": [<identifier>, ...]\x7d` via `or_json` (external library);
this is its compact text rendering. -/
def writeObjectIds (ids : List String) : String :=
  ⟨"\x7b\"object_ids\":[".data ++ renderIdsChars ids ++ [']', '\x7d']⟩

/-- The state and the three messages a `process` call produces (lines
251-253), together with the updated process-wide table. -/
structure Output where
  table : Table
  pose_msg : PoseArrayMsg
  marker_msg : List Marker
  object_ids_msg : String
  deriving DecidableEq, Repr

/-- Lines 159-165: the pose-array header — stamped with the clock value, and
carrying the image's frame identifier exactly when the image input is present
(a ROS string field left unset stays `""`). -/
def mkHeader (now : ℚ) (image : Option String) : Header :=
  { frame_id := match image with | some f => f | none => "", stamp := now }

/-- Lines 153-255: one invocation of `MsgAssembler::process`. `t` is the
process-wide table on entry, `now` models `ros::Time::now()`, `image` the
optional `image_message` input (carrying its header's frame identifier), `ps`
the `pose_results` input. -/
def process (t : Table) (now : ℚ) (image : Option String) (ps : List PoseResult) : Output :=
  let hdr : Header := mkHeader now image
  let t1 := insertObjectIds t ps
  let res := markerLoop hdr t1 0 ps
  { table := res.1,
    pose_msg := { header := hdr, poses := res.2.1 },
    marker_msg := res.2.2,
    object_ids_msg := writeObjectIds (ps.map PoseResult.object_id) }

/-- The per-object hue the cell computes on line 209, read off the table:
`(360 / table size) * stored index of the identifier`. -/
def hueOf (t : Table) (id : ObjectId) : ℚ :=
  (360 / (t.length : ℚ)) * (((mapFind t id).getD 0 : ℕ) : ℚ)

/-- The 3×3 identity rotation matrix. -/
def identityMat : Fin 3 → Fin 3 → ℚ := fun i j => if i = j then 1 else 0

/-- The rotation matrix of a 180° rotation about the Z axis: `diag(-1, -1, 1)`. -/
def rotZ180Mat : Fin 3 → Fin 3 → ℚ :=
  fun i j => if i = j then (if (i : ℕ) = 2 then 1 else -1) else 0

/-- Evaluation helper: the rational square root of `4` is exactly `2`. -/
theorem rat_sqrt_four : Rat.sqrt 4 = 2 := by
  rw [show (4 : ℚ) = 2 * 2 by norm_num, Rat.sqrt_eq]
  norm_num

/-! ### Lemmas about the object-index table -/

theorem mapFind_append_some {t : Table} {id : ObjectId} {v : Nat}
    (h : mapFind t id = some v) (l : Table) : mapFind (t ++ l) id = some v := by
  induction t with
  | nil => simp [mapFind] at h
  | cons kv rest ih =>
    obtain ⟨k, w⟩ := kv
    rw [List.cons_append]
    simp only [mapFind] at h ⊢
    by_cases hk : k = id
    · rwa [if_pos hk] at h ⊢
    · rw [if_neg hk] at h ⊢
      exact ih h

theorem mapFind_append_fresh {t : Table} {id : ObjectId}
    (h : mapFind t id = none) (n : Nat) : mapFind (t ++ [(id, n)]) id = some n := by
  induction t with
  | nil => simp [mapFind]
  | cons kv rest ih =>
    obtain ⟨k, w⟩ := kv
    rw [List.cons_append]
    simp only [mapFind] at h ⊢
    by_cases hk : k = id
    · rw [if_pos hk] at h
      exact absurd h (by simp)
    · rw [if_neg hk] at h ⊢
      exact ih h

theorem mapFind_nil (id : ObjectId) : mapFind [] id = none := rfl

theorem length_pos_of_mapFind_isSome {t : Table} {id : ObjectId}
    (h : (mapFind t id).isSome) : 0 < t.length := by
  cases t with
  | nil => simp [mapFind] at h
  | cons kv rest => simp

theorem insertId_found {t : Table} {id : ObjectId} {v : Nat}
    (h : mapFind t id = some v) : insertId t id = t := by
  simp [insertId, h]

theorem insertId_fresh {t : Table} {id : ObjectId}
    (h : mapFind t id = none) : insertId t id = t ++ [(id, t.length)] := by
  simp [insertId, h]

theorem mapFind_insertId_self_fresh {t : Table} {id : ObjectId}
    (h : mapFind t id = none) : mapFind (insertId t id) id = some t.length := by
  rw [insertId_fresh h]
  exact mapFind_append_fresh h _

theorem mapFind_insertId_isSome (t : Table) (id : ObjectId) :
    (mapFind (insertId t id) id).isSome := by
  cases h : mapFind t id with
  | some v => rw [insertId_found h, h]; rfl
  | none => rw [mapFind_insertId_self_fresh h]; rfl

theorem mapFind_insertId_mono {t : Table} {id : ObjectId} {v : Nat}
    (h : mapFind t id = some v) (id' : ObjectId) :
    mapFind (insertId t id') id = some v := by
  cases h' : mapFind t id' with
  | some w => rw [insertId_found h']; exact h
  | none => rw [insertId_fresh h']; exact mapFind_append_some h _

theorem insertId_length_le (t : Table) (id : ObjectId) :
    t.length ≤ (insertId t id).length := by
  cases h : mapFind t id with
  | some v => rw [insertId_found h]
  | none => rw [insertId_fresh h]; simp

theorem insertObjectIds_nil (t : Table) : insertObjectIds t [] = t := rfl

theorem insertObjectIds_cons (t : Table) (p : PoseResult) (ps : List PoseResult) :
    insertObjectIds t (p :: ps) = insertObjectIds (insertId t p.object_id) ps := rfl

theorem mapFind_insertObjectIds_mono {t : Table} {id : ObjectId} {v : Nat}
    (h : mapFind t id = some v) (ps : List PoseResult) :
    mapFind (insertObjectIds t ps) id = some v := by
  induction ps generalizing t with
  | nil => exact h
  | cons p rest ih =>
    rw [insertObjectIds_cons]
    exact ih (mapFind_insertId_mono h p.object_id)

theorem mapFind_insertObjectIds_isSome {t : Table} {id : ObjectId}
    (h : (mapFind t id).isSome) (ps : List PoseResult) :
    (mapFind (insertObjectIds t ps) id).isSome := by
  obtain ⟨v, hv⟩ := Option.isSome_iff_exists.mp h
  rw [mapFind_insertObjectIds_mono hv ps]
  rfl

theorem insertObjectIds_length_le (t : Table) (ps : List PoseResult) :
    t.length ≤ (insertObjectIds t ps).length := by
  induction ps generalizing t with
  | nil => exact Nat.le_refl _
  | cons p rest ih =>
    rw [insertObjectIds_cons]
    exact Nat.le_trans (insertId_length_le t p.object_id) (ih _)

theorem mapFind_insertObjectIds_mem {t : Table} {ps : List PoseResult} {p : PoseResult}
    (h : p ∈ ps) : (mapFind (insertObjectIds t ps) p.object_id).isSome := by
  induction ps generalizing t with
  | nil => cases h
  | cons q rest ih =>
    rw [insertObjectIds_cons]
    rcases List.mem_cons.mp h with hq | hq
    · subst hq
      exact mapFind_insertObjectIds_isSome (mapFind_insertId_isSome t p.object_id) rest
    · exact ih hq

theorem mapBracket_found {t : Table} {id : ObjectId} {v : Nat}
    (h : mapFind t id = some v) : mapBracket t id = (t, v) := by
  simp [mapBracket, h]

/-! ### Lemmas about the marker loop -/

theorem markerLoop_nil (hdr : Header) (t : Table) (mid : Nat) :
    markerLoop hdr t mid [] = (t, [], []) := rfl

theorem markerLoop_cons_table (hdr : Header) (t : Table) (mid : Nat)
    (p : PoseResult) (rest : List PoseResult) :
    (markerLoop hdr t mid (p :: rest)).1 =
      (markerLoop hdr (mapBracket t p.object_id).1 (mid + 1) rest).1 := rfl

theorem markerLoop_cons_poses (hdr : Header) (t : Table) (mid : Nat)
    (p : PoseResult) (rest : List PoseResult) :
    (markerLoop hdr t mid (p :: rest)).2.1 =
      poseOf p :: (markerLoop hdr (mapBracket t p.object_id).1 (mid + 1) rest).2.1 := rfl

theorem markerLoop_cons_markers (hdr : Header) (t : Table) (mid : Nat)
    (p : PoseResult) (rest : List PoseResult) :
    (markerLoop hdr t mid (p :: rest)).2.2 =
      mkMeshMarker t hdr mid p :: mkTextMarker t hdr mid p ::
        (markerLoop hdr (mapBracket t p.object_id).1 (mid + 1) rest).2.2 := rfl

theorem markerLoop_table {hdr : Header} {ps : List PoseResult} :
    ∀ {t : Table} {mid : Nat}, (∀ p ∈ ps, (mapFind t p.object_id).isSome) →
      (markerLoop hdr t mid ps).1 = t := by
  induction ps with
  | nil => intro t mid _; rfl
  | cons p rest ih =>
    intro t mid H
    obtain ⟨v, hv⟩ := Option.isSome_iff_exists.mp (H p (List.mem_cons_self p rest))
    rw [markerLoop_cons_table, mapBracket_found hv]
    exact ih fun q hq => H q (List.mem_cons_of_mem p hq)

theorem markerLoop_poses (hdr : Header) (ps : List PoseResult) :
    ∀ (t : Table) (mid : Nat), (markerLoop hdr t mid ps).2.1 = ps.map poseOf := by
  induction ps with
  | nil => intro t mid; rfl
  | cons p rest ih =>
    intro t mid
    rw [markerLoop_cons_poses, List.map_cons]
    exact congrArg _ (ih _ _)

theorem markerLoop_markers_length (hdr : Header) (ps : List PoseResult) :
    ∀ (t : Table) (mid : Nat), (markerLoop hdr t mid ps).2.2.length = 2 * ps.length := by
  induction ps with
  | nil => intro t mid; rfl
  | cons p rest ih =>
    intro t mid
    rw [markerLoop_cons_markers]
    simp only [List.length_cons, ih, List.length_cons]
    omega

theorem markerLoop_markers_getElem {hdr : Header} {ps : List PoseResult} :
    ∀ {t : Table} {mid k : Nat} {p : PoseResult},
      (∀ q ∈ ps, (mapFind t q.object_id).isSome) → ps[k]? = some p →
      (markerLoop hdr t mid ps).2.2[2 * k]? = some (mkMeshMarker t hdr (mid + k) p) ∧
      (markerLoop hdr t mid ps).2.2[2 * k + 1]? = some (mkTextMarker t hdr (mid + k) p) := by
  induction ps with
  | nil => intro t mid k p _ hk; simp at hk
  | cons q rest ih =>
    intro t mid k p H hk
    obtain ⟨v, hv⟩ := Option.isSome_iff_exists.mp (H q (List.mem_cons_self q rest))
    rw [markerLoop_cons_markers]
    cases k with
    | zero =>
      simp only [List.getElem?_cons_zero, Option.some.injEq] at hk
      subst hk
      constructor
      · simp only [Nat.mul_zero, Nat.add_zero, List.getElem?_cons_zero]
      · simp only [Nat.mul_zero, Nat.add_zero, List.getElem?_cons_succ,
          List.getElem?_cons_zero]
    | succ k' =>
      have hrest : rest[k']? = some p := by simpa using hk
      have H' : ∀ q' ∈ rest, (mapFind t q'.object_id).isSome :=
        fun q' hq' => H q' (List.mem_cons_of_mem q hq')
      have hrec := @ih t (mid + 1) k' p H' hrest
      rw [mapBracket_found hv]
      have e2 : 2 * (k' + 1) = (2 * k' + 1) + 1 := by omega
      rw [e2]
      simp only [List.getElem?_cons_succ]
      have emid : mid + 1 + k' = mid + (k' + 1) := by omega
      rw [← emid]
      exact hrec

/-! ### A JSON parser for the object-ids payload, and the round trip -/

/-- A string with no character the JSON writer escapes. -/
def PlainStr (s : String) : Prop := ∀ c ∈ s.data, c ≠ '"' ∧ c ≠ '\\'

instance (s : String) : Decidable (PlainStr s) := by
  unfold PlainStr
  infer_instance

/-- Split a character list at its first quote: returns the characters before
it and those after it. -/
def spanQuote : List Char → Option (List Char × List Char)
  | [] => none
  | c :: rest =>
    if c = '"' then some ([], rest)
    else
      match spanQuote rest with
      | some br => some (c :: br.1, br.2)
      | none => none

/-- Modelled from the spec: parse one JSON string literal (no escapes) at the
head of the input, returning it and the remaining input. -/
def parseString1 : List Char → Option (String × List Char)
  | '"' :: rest =>
    match spanQuote rest with
    | some br => some (⟨br.1⟩, br.2)
    | none => none
  | _ => none

/-- Modelled from the spec: parse the comma-separated JSON string items
followed by the closing `]\x7d` and end of input; `fuel` bounds the number of
items. -/
def parseItemsAux (fuel : Nat) (cs : List Char) : Option (List String) :=
  if cs = [']', '\x7d'] then some []
  else
    match fuel with
    | 0 => none
    | fuel' + 1 =>
      match parseString1 cs with
      | none => none
      | some sv =>
        match sv.2 with
        | [] => none
        | c :: rest' =>
          if c = ',' then (parseItemsAux fuel' rest').map (fun l => sv.1 :: l)
          else if c = ']' ∧ rest' = ['\x7d'] then some [sv.1]
          else none

/-- Modelled from the spec: "Object-id list output, JSON-parsed, under key
`"object_ids"`" — parse the payload `\x7b"object_ids":[...]\x7d` back into
the list of identifier strings. -/
def parseObjectIds (s : String) : Option (List String) :=
  if s.data.take 15 = "\x7b\"object_ids\":[".data
  then parseItemsAux (s.data.drop 15).length (s.data.drop 15)
  else none

theorem jsonEscapeList_plain {l : List Char} (h : ∀ c ∈ l, c ≠ '"' ∧ c ≠ '\\') :
    jsonEscapeList l = l := by
  induction l with
  | nil => rfl
  | cons c rest ih =>
    obtain ⟨h1, h2⟩ := h c (List.mem_cons_self c rest)
    simp only [jsonEscapeList, if_neg h1, if_neg h2]
    rw [ih fun c' hc' => h c' (List.mem_cons_of_mem c hc')]
    rfl

theorem spanQuote_round {l : List Char} (tail : List Char)
    (h : ∀ c ∈ l, c ≠ '"') :
    spanQuote (l ++ '"' :: tail) = some (l, tail) := by
  induction l with
  | nil => simp [spanQuote]
  | cons c rest ih =>
    rw [List.cons_append]
    simp only [spanQuote, if_neg (h c (List.mem_cons_self c rest))]
    rw [ih fun c' hc' => h c' (List.mem_cons_of_mem c hc')]

theorem parseString1_round {s : String} (tail : List Char) (h : PlainStr s) :
    parseString1 ('"' :: (s.data ++ '"' :: tail)) = some (s, tail) := by
  have hq : ∀ c ∈ s.data, c ≠ '"' := fun c hc => (h c hc).1
  simp only [parseString1, spanQuote_round tail hq]

theorem parseItemsAux_closed (fuel : Nat) :
    parseItemsAux fuel [']', '\x7d'] = some [] := by
  cases fuel <;> simp [parseItemsAux]

theorem parseItemsAux_round {ids : List String} :
    ∀ {fuel : Nat}, (∀ s ∈ ids, PlainStr s) → ids.length ≤ fuel →
      parseItemsAux fuel (renderIdsChars ids ++ [']', '\x7d']) = some ids := by
  induction ids with
  | nil =>
    intro fuel _ _
    simpa [renderIdsChars] using parseItemsAux_closed fuel
  | cons s rest ih =>
    cases rest with
    | nil =>
      intro fuel hplain hfuel
      have h1 : 1 ≤ fuel := by
        simp only [List.length_cons, List.length_nil] at hfuel
        omega
      obtain ⟨f, rfl⟩ : ∃ f, fuel = f + 1 := ⟨fuel - 1, by omega⟩
      have hs : PlainStr s := hplain s (List.mem_cons_self s [])
      have hcs : renderIdsChars [s] ++ [']', '\x7d'] =
          '"' :: (s.data ++ '"' :: ']' :: '\x7d' :: []) := by
        simp [renderIdsChars, jsonEscapeList_plain hs]
      rw [hcs]
      simp [parseItemsAux, parseString1_round (']' :: '\x7d' :: []) hs]
    | cons r rs =>
      intro fuel hplain hfuel
      have h1 : 1 ≤ fuel := by
        simp only [List.length_cons] at hfuel
        omega
      obtain ⟨f, rfl⟩ : ∃ f, fuel = f + 1 := ⟨fuel - 1, by omega⟩
      have hs : PlainStr s := hplain s (List.mem_cons_self s (r :: rs))
      have hrest : ∀ x ∈ r :: rs, PlainStr x :=
        fun x hx => hplain x (List.mem_cons_of_mem s hx)
      have hcs : renderIdsChars (s :: r :: rs) ++ [']', '\x7d'] =
          '"' :: (s.data ++ '"' :: ',' ::
            (renderIdsChars (r :: rs) ++ [']', '\x7d'])) := by
        simp [renderIdsChars, jsonEscapeList_plain hs]
      rw [hcs]
      have hlen : (r :: rs).length ≤ f := by
        simp only [List.length_cons] at hfuel ⊢
        omega
      have hrec := ih hrest hlen
      simp [parseItemsAux,
        parseString1_round (',' :: (renderIdsChars (r :: rs) ++ [']', '\x7d'])) hs,
        hrec]

theorem length_renderIdsChars (ids : List String) :
    ids.length ≤ (renderIdsChars ids).length + 1 := by
  induction ids with
  | nil => simp [renderIdsChars]
  | cons s rest ih =>
    cases rest with
    | nil => simp [renderIdsChars]
    | cons r rs =>
      simp only [renderIdsChars, List.length_cons, List.length_append] at ih ⊢
      omega

theorem parseObjectIds_round {ids : List String} (h : ∀ s ∈ ids, PlainStr s) :
    parseObjectIds (writeObjectIds ids) = some ids := by
  have hdata : (writeObjectIds ids).data =
      "\x7b\"object_ids\":[".data ++ (renderIdsChars ids ++ [']', '\x7d']) := by
    show ("\x7b\"object_ids\":[".data) ++ renderIdsChars ids ++ [']', '\x7d'] = _
    rw [List.append_assoc]
  have hpfx : ("\x7b\"object_ids\":[".data).length = 15 := by decide
  unfold parseObjectIds
  rw [hdata, List.take_left' hpfx, List.drop_left' hpfx, if_pos rfl]
  refine parseItemsAux_round h ?_
  have := length_renderIdsChars ids
  simp only [List.length_append, List.length_cons, List.length_nil]
  omega

/-! ### Concrete inputs used by witnesses and counterexamples -/

/-- A concrete pose result: identity rotation, zero translation. -/
def poseA : PoseResult :=
  { object_id := "coke", R := identityMat, T := fun _ => 0, attrs := fun _ => "" }

/-- A second concrete pose result with a distinct identifier. -/
def poseB : PoseResult :=
  { object_id := "tea", R := identityMat, T := fun _ => 0, attrs := fun _ => "" }

/-! ### The claims -/

/-- Claim C1, counterexample: on a single-result input the marker array's two
markers (the mesh marker and its paired text marker) carry the same id `0`
(the source sets `marker.id = marker_id` once, before pushing the mesh marker,
and does not change it for the text marker), so the ids are neither strictly
increasing nor unique within the array. -/
theorem C1_counterexample :
    ((process [] 0 none [poseA]).marker_msg.map Marker.id) = [0, 0] ∧
    ¬ List.Pairwise (fun a b : Nat => a ≠ b)
        ((process [] 0 none [poseA]).marker_msg.map Marker.id) := by
  have h : ((process [] 0 none [poseA]).marker_msg.map Marker.id) = [0, 0] := rfl
  exact ⟨h, by rw [h]; decide⟩

/-- Claim C1 (amended): for every input sequence the marker array has exactly
`2 × len(input)` markers, alternating a mesh marker then a text marker per
input item in input order; the k-th pair's mesh and text markers both carry
integer id `k`, so mesh-marker ids are strictly increasing from 0 but ids are
not unique within the array. -/
theorem C1_marker_array (t : Table) (now : ℚ) (img : Option String)
    (ps : List PoseResult) (k : Nat) (hk : k < ps.length) :
    (process t now img ps).marker_msg.length = 2 * ps.length ∧
    ((process t now img ps).marker_msg[2 * k]?).map Marker.type =
      some MarkerType.MESH_RESOURCE ∧
    ((process t now img ps).marker_msg[2 * k + 1]?).map Marker.type =
      some MarkerType.TEXT_VIEW_FACING ∧
    ((process t now img ps).marker_msg[2 * k]?).map Marker.id = some k ∧
    ((process t now img ps).marker_msg[2 * k + 1]?).map Marker.id = some k := by
  have H : ∀ q ∈ ps, (mapFind (insertObjectIds t ps) q.object_id).isSome :=
    fun q hq => mapFind_insertObjectIds_mem hq
  have hsome : ps[k]? = some ps[k] := List.getElem?_eq_getElem hk
  obtain ⟨h2k, h2k1⟩ := markerLoop_markers_getElem H hsome
  refine ⟨markerLoop_markers_length (mkHeader now img) ps (insertObjectIds t ps) 0,
    ?_, ?_, ?_, ?_⟩
  · rw [show (process t now img ps).marker_msg =
      (markerLoop (mkHeader now img) (insertObjectIds t ps) 0 ps).2.2 from rfl, h2k]
    simp [mkMeshMarker]
  · rw [show (process t now img ps).marker_msg =
      (markerLoop (mkHeader now img) (insertObjectIds t ps) 0 ps).2.2 from rfl, h2k1]
    simp [mkTextMarker, mkMeshMarker]
  · rw [show (process t now img ps).marker_msg =
      (markerLoop (mkHeader now img) (insertObjectIds t ps) 0 ps).2.2 from rfl, h2k]
    simp [mkMeshMarker]
  · rw [show (process t now img ps).marker_msg =
      (markerLoop (mkHeader now img) (insertObjectIds t ps) 0 ps).2.2 from rfl, h2k1]
    simp [mkTextMarker, mkMeshMarker]

/-- Witness for the amended C1, at a concrete single-result input. -/
theorem C1_marker_array_witness :
    (process [] 0 none [poseA]).marker_msg.length = 2 * [poseA].length ∧
    ((process [] 0 none [poseA]).marker_msg[2 * 0]?).map Marker.type =
      some MarkerType.MESH_RESOURCE ∧
    ((process [] 0 none [poseA]).marker_msg[2 * 0 + 1]?).map Marker.type =
      some MarkerType.TEXT_VIEW_FACING ∧
    ((process [] 0 none [poseA]).marker_msg[2 * 0]?).map Marker.id = some 0 ∧
    ((process [] 0 none [poseA]).marker_msg[2 * 0 + 1]?).map Marker.id = some 0 :=
  C1_marker_array [] 0 none [poseA] 0 (by decide)

/-- Claim C2: the process-wide object-index table assigns a fresh identifier
the index equal to the table's size at assignment time; an identifier already
present keeps its binding unchanged; existing bindings survive every later
`process` invocation; and the table never shrinks across invocations. -/
theorem C2_index_table (t : Table) (id : ObjectId) (ps : List PoseResult)
    (now : ℚ) (img : Option String) :
    (mapFind t id = none → mapFind (insertId t id) id = some t.length) ∧
    (∀ v, mapFind t id = some v → insertId t id = t) ∧
    (∀ v, mapFind t id = some v →
      mapFind (process t now img ps).table id = some v) ∧
    t.length ≤ ((process t now img ps).table).length := by
  have htab : (process t now img ps).table = insertObjectIds t ps :=
    markerLoop_table fun p hp => mapFind_insertObjectIds_mem hp
  refine ⟨fun h => mapFind_insertId_self_fresh h,
    fun v hv => insertId_found hv, fun v hv => ?_, ?_⟩
  · rw [htab]
    exact mapFind_insertObjectIds_mono hv ps
  · rw [htab]
    exact insertObjectIds_length_le t ps

/-- Witness for C2, at a concrete table and call. -/
theorem C2_index_table_witness :
    mapFind (insertId [("a", 0)] "b") "b" = some ([("a", 0)] : Table).length ∧
    insertId [("a", 0)] "a" = [("a", 0)] ∧
    ([("a", 0)] : Table).length ≤ ((process [("a", 0)] 0 none []).table).length :=
  ⟨(C2_index_table [("a", 0)] "b" [] 0 none).1 rfl,
   (C2_index_table [("a", 0)] "a" [] 0 none).2.1 0 rfl,
   (C2_index_table [("a", 0)] "b" [] 0 none).2.2.2⟩

/-- Claim C3: each mesh marker's colour is the HSV→RGB conversion (saturation
0.7, value 1) of the hue `(360 / table size) * index of the object id`, where
the table is the process-wide table after all of this call's identifiers were
inserted; and the conversion sends hue 0 to (1, 0.3, 0.3), hue 120 to
(0.3, 1, 0.3) and hue 240 to (0.3, 0.3, 1) — exactly, in the rational model. -/
theorem C3_marker_hue (t : Table) (now : ℚ) (img : Option String)
    (ps : List PoseResult) (k : Nat) (p : PoseResult) (hk : ps[k]? = some p) :
    ((process t now img ps).marker_msg[2 * k]?).map Marker.color =
      some { r := (hsv2rgb (hueOf (insertObjectIds t ps) p.object_id) (7 / 10) 1).1,
             g := (hsv2rgb (hueOf (insertObjectIds t ps) p.object_id) (7 / 10) 1).2.1,
             b := (hsv2rgb (hueOf (insertObjectIds t ps) p.object_id) (7 / 10) 1).2.2,
             a := 3 / 4 } ∧
    hsv2rgb 0 (7 / 10) 1 = (1, 3 / 10, 3 / 10) ∧
    hsv2rgb 120 (7 / 10) 1 = (3 / 10, 1, 3 / 10) ∧
    hsv2rgb 240 (7 / 10) 1 = (3 / 10, 3 / 10, 1) := by
  have H : ∀ q ∈ ps, (mapFind (insertObjectIds t ps) q.object_id).isSome :=
    fun q hq => mapFind_insertObjectIds_mem hq
  obtain ⟨h2k, _⟩ := markerLoop_markers_getElem H hk
  have hpmem : p ∈ ps := by
    have := List.getElem?_eq_some_iff.mp hk
    obtain ⟨hlt, hget⟩ := this
    exact hget ▸ List.getElem_mem hlt
  obtain ⟨v, hv⟩ := Option.isSome_iff_exists.mp (H p hpmem)
  refine ⟨?_, by norm_num [hsv2rgb, fmodf, ratTrunc],
    by norm_num [hsv2rgb, fmodf, ratTrunc], by norm_num [hsv2rgb, fmodf, ratTrunc]⟩
  rw [show (process t now img ps).marker_msg =
    (markerLoop (mkHeader now img) (insertObjectIds t ps) 0 ps).2.2 from rfl, h2k]
  simp [mkMeshMarker, mapBracket_found hv, hueOf, hv]

/-- Witness for C3, at a concrete single-result input. -/
theorem C3_marker_hue_witness :
    ((process [] 0 none [poseA]).marker_msg[2 * 0]?).map Marker.color =
      some { r := (hsv2rgb (hueOf (insertObjectIds [] [poseA]) poseA.object_id) (7 / 10) 1).1,
             g := (hsv2rgb (hueOf (insertObjectIds [] [poseA]) poseA.object_id) (7 / 10) 1).2.1,
             b := (hsv2rgb (hueOf (insertObjectIds [] [poseA]) poseA.object_id) (7 / 10) 1).2.2,
             a := 3 / 4 } ∧
    hsv2rgb 0 (7 / 10) 1 = (1, 3 / 10, 3 / 10) ∧
    hsv2rgb 120 (7 / 10) 1 = (3 / 10, 1, 3 / 10) ∧
    hsv2rgb 240 (7 / 10) 1 = (3 / 10, 3 / 10, 1) :=
  C3_marker_hue [] 0 none [poseA] 0 poseA rfl

/-- Claim C4: the object-ids output is the serialized JSON object
`\x7b"object_ids": [...]\x7d`, and parsing it back yields exactly the input's
object identifiers in input order (length, order and duplicates preserved). -/
theorem C4_object_ids (t : Table) (now : ℚ) (img : Option String)
    (ps : List PoseResult) (h : ∀ p ∈ ps, PlainStr p.object_id) :
    (process t now img ps).object_ids_msg =
      writeObjectIds (ps.map PoseResult.object_id) ∧
    parseObjectIds ((process t now img ps).object_ids_msg) =
      some (ps.map PoseResult.object_id) := by
  refine ⟨rfl, ?_⟩
  show parseObjectIds (writeObjectIds (ps.map PoseResult.object_id)) = _
  refine parseObjectIds_round ?_
  intro s hs
  obtain ⟨p, hp, rfl⟩ := List.mem_map.mp hs
  exact h p hp

/-- Witness for C4, at a concrete two-result input with a duplicate id. -/
theorem C4_object_ids_witness :
    (process [] 0 none [poseA, poseB, poseA]).object_ids_msg =
      writeObjectIds ([poseA, poseB, poseA].map PoseResult.object_id) ∧
    parseObjectIds ((process [] 0 none [poseA, poseB, poseA]).object_ids_msg) =
      some ([poseA, poseB, poseA].map PoseResult.object_id) :=
  C4_object_ids [] 0 none [poseA, poseB, poseA] (by decide)

/-- Claim C5: the pose array has exactly one entry per input pose result, in
input order; each entry's position is the translation 3-vector and its
orientation is the quaternion of the 3×3 rotation matrix. -/
theorem C5_pose_array (t : Table) (now : ℚ) (img : Option String)
    (ps : List PoseResult) :
    (process t now img ps).pose_msg.poses.length = ps.length ∧
    (process t now img ps).pose_msg.poses =
      ps.map (fun p =>
        { position := { x := p.T 0, y := p.T 1, z := p.T 2 },
          orientation := matToQuat p.R }) := by
  have hp : (process t now img ps).pose_msg.poses = ps.map poseOf :=
    markerLoop_poses (mkHeader now img) ps (insertObjectIds t ps) 0
  constructor
  · rw [hp, List.length_map]
  · rw [hp]
    rfl

/-- Claim C6: an empty input still produces all three outputs — an empty pose
array, an empty marker array, and the payload `\x7b"object_ids":[]\x7d`. -/
theorem C6_empty_input (t : Table) (now : ℚ) (img : Option String) :
    (process t now img []).pose_msg.poses = [] ∧
    (process t now img []).marker_msg = [] ∧
    (process t now img []).object_ids_msg = "\x7b\"object_ids\":[]\x7d" := by
  refine ⟨rfl, rfl, ?_⟩
  show writeObjectIds [] = _
  decide

/-- Claim C7: the rotation-matrix→quaternion conversion sends the identity
matrix to (x=0, y=0, z=0, w=1) and the 180° rotation about Z to
(x=0, y=0, z=1, w=0). -/
theorem C7_quaternion :
    matToQuat identityMat = { x := 0, y := 0, z := 0, w := 1 } ∧
    matToQuat rotZ180Mat = { x := 0, y := 0, z := 1, w := 0 } := by
  constructor
  · norm_num [matToQuat, identityMat, rat_sqrt_four]
    simp +decide
  · simp +decide only [matToQuat, rotZ180Mat]
    norm_num [rat_sqrt_four]

/-- Claim C8: the pose-array header is stamped with the current clock value;
its frame identifier is the image's frame identifier exactly when the image
context is present and stays unset (`""`) when absent; processing completes
and produces the outputs either way. -/
theorem C8_header (t : Table) (now : ℚ) (img : Option String)
    (ps : List PoseResult) :
    (process t now img ps).pose_msg.header.stamp = now ∧
    (∀ f, img = some f → (process t now img ps).pose_msg.header.frame_id = f) ∧
    (img = none → (process t now img ps).pose_msg.header.frame_id = "") ∧
    (process t now img ps).pose_msg.poses.length = ps.length ∧
    (process t now img ps).marker_msg.length = 2 * ps.length := by
  refine ⟨rfl, ?_, ?_, ?_, ?_⟩
  · intro f hf
    subst hf
    rfl
  · intro hf
    subst hf
    rfl
  · have hp : (process t now img ps).pose_msg.poses = ps.map poseOf :=
      markerLoop_poses (mkHeader now img) ps (insertObjectIds t ps) 0
    rw [hp, List.length_map]
  · exact markerLoop_markers_length (mkHeader now img) ps (insertObjectIds t ps) 0

/-- Witness for C8, with the image context present and absent. -/
theorem C8_header_witness :
    (process [] 5 (some ("camera_frame")) []).pose_msg.header.stamp = 5 ∧
    (process [] 5 (some ("camera_frame")) []).pose_msg.header.frame_id = "camera_frame" ∧
    (process [] 5 none []).pose_msg.header.frame_id = "" :=
  ⟨(C8_header [] 5 (some ("camera_frame")) []).1,
   (C8_header [] 5 (some ("camera_frame")) []).2.1 ("camera_frame") rfl,
   (C8_header [] 5 none []).2.2.1 rfl⟩

/-- Claim C9: the k-th mesh marker carries the k-th pose, uniform scale 1,
alpha 0.75 over the computed per-object colour, lifetime 30, action ADD and
the `mesh_uri` attribute as mesh resource; the paired text marker has the
same pose and id, `scale.z = 0.03`, opaque white colour, lifetime 10 and the
`name` attribute as text. -/
theorem C9_marker_fields (t : Table) (now : ℚ) (img : Option String)
    (ps : List PoseResult) (k : Nat) (p : PoseResult) (hk : ps[k]? = some p) :
    (process t now img ps).marker_msg[2 * k]? =
      some { header := mkHeader now img,
             pose := { position := { x := p.T 0, y := p.T 1, z := p.T 2 },
                       orientation := matToQuat p.R },
             type := MarkerType.MESH_RESOURCE,
             action := MarkerAction.ADD,
             lifetime := 30,
             scale := { x := 1, y := 1, z := 1 },
             color := { r := (hsv2rgb (hueOf (insertObjectIds t ps) p.object_id) (7 / 10) 1).1,
                        g := (hsv2rgb (hueOf (insertObjectIds t ps) p.object_id) (7 / 10) 1).2.1,
                        b := (hsv2rgb (hueOf (insertObjectIds t ps) p.object_id) (7 / 10) 1).2.2,
                        a := 3 / 4 },
             id := k,
             mesh_resource := p.attrs ("mesh_uri"),
             text := "" } ∧
    (process t now img ps).marker_msg[2 * k + 1]? =
      some { header := mkHeader now img,
             pose := { position := { x := p.T 0, y := p.T 1, z := p.T 2 },
                       orientation := matToQuat p.R },
             type := MarkerType.TEXT_VIEW_FACING,
             action := MarkerAction.ADD,
             lifetime := 10,
             scale := { x := 1, y := 1, z := 3 / 100 },
             color := { r := 1, g := 1, b := 1, a := 1 },
             id := k,
             mesh_resource := p.attrs ("mesh_uri"),
             text := p.attrs ("name") } := by
  have H : ∀ q ∈ ps, (mapFind (insertObjectIds t ps) q.object_id).isSome :=
    fun q hq => mapFind_insertObjectIds_mem hq
  obtain ⟨h2k, h2k1⟩ := markerLoop_markers_getElem H hk
  have hpmem : p ∈ ps := by
    obtain ⟨hlt, hget⟩ := List.getElem?_eq_some_iff.mp hk
    exact hget ▸ List.getElem_mem hlt
  obtain ⟨v, hv⟩ := Option.isSome_iff_exists.mp (H p hpmem)
  constructor
  · rw [show (process t now img ps).marker_msg =
      (markerLoop (mkHeader now img) (insertObjectIds t ps) 0 ps).2.2 from rfl, h2k]
    simp [mkMeshMarker, poseOf, mapBracket_found hv, hueOf, hv]
  · rw [show (process t now img ps).marker_msg =
      (markerLoop (mkHeader now img) (insertObjectIds t ps) 0 ps).2.2 from rfl, h2k1]
    simp [mkTextMarker, mkMeshMarker, poseOf, mapBracket_found hv, hueOf, hv]

/-- Witness for C9, at a concrete single-result input. -/
theorem C9_marker_fields_witness :
    (process [] 0 none [poseA]).marker_msg[2 * 0]? =
      some { header := mkHeader 0 none,
             pose := { position := { x := poseA.T 0, y := poseA.T 1, z := poseA.T 2 },
                       orientation := matToQuat poseA.R },
             type := MarkerType.MESH_RESOURCE,
             action := MarkerAction.ADD,
             lifetime := 30,
             scale := { x := 1, y := 1, z := 1 },
             color := { r := (hsv2rgb (hueOf (insertObjectIds [] [poseA]) poseA.object_id) (7 / 10) 1).1,
                        g := (hsv2rgb (hueOf (insertObjectIds [] [poseA]) poseA.object_id) (7 / 10) 1).2.1,
                        b := (hsv2rgb (hueOf (insertObjectIds [] [poseA]) poseA.object_id) (7 / 10) 1).2.2,
                        a := 3 / 4 },
             id := 0,
             mesh_resource := poseA.attrs ("mesh_uri"),
             text := "" } :=
  (C9_marker_fields [] 0 none [poseA] 0 poseA rfl).1

/-- Claim C10: inside the marker loop the hue's division never divides by
zero — after the pre-pass every input identifier is present in the table, so
the table is non-empty whenever the loop body runs, and the `operator[]`
lookup always finds an existing entry, leaving the table unchanged (both in
the loop and in the table `process` returns). -/
theorem C10_no_div_by_zero (t : Table) (now : ℚ) (img : Option String)
    (ps : List PoseResult) (p : PoseResult) (hp : p ∈ ps) :
    (mapFind (insertObjectIds t ps) p.object_id).isSome ∧
    0 < (insertObjectIds t ps).length ∧
    ((insertObjectIds t ps).length : ℚ) ≠ 0 ∧
    (markerLoop (mkHeader now img) (insertObjectIds t ps) 0 ps).1 =
      insertObjectIds t ps ∧
    (process t now img ps).table = insertObjectIds t ps := by
  have h1 : (mapFind (insertObjectIds t ps) p.object_id).isSome :=
    mapFind_insertObjectIds_mem hp
  have h2 : 0 < (insertObjectIds t ps).length := length_pos_of_mapFind_isSome h1
  have h4 : (markerLoop (mkHeader now img) (insertObjectIds t ps) 0 ps).1 =
      insertObjectIds t ps :=
    markerLoop_table fun q hq => mapFind_insertObjectIds_mem hq
  refine ⟨h1, h2, ?_, h4, h4⟩
  exact_mod_cast Nat.pos_iff_ne_zero.mp h2

/-- Witness for C10, at a concrete single-result input. -/
theorem C10_no_div_by_zero_witness :
    (mapFind (insertObjectIds [] [poseA]) poseA.object_id).isSome ∧
    0 < (insertObjectIds [] [poseA]).length ∧
    ((insertObjectIds [] [poseA]).length : ℚ) ≠ 0 ∧
    (markerLoop (mkHeader 0 none) (insertObjectIds [] [poseA]) 0 [poseA]).1 =
      insertObjectIds [] [poseA] ∧
    (process [] 0 none [poseA]).table = insertObjectIds [] [poseA] :=
  C10_no_div_by_zero [] 0 none [poseA] poseA (List.mem_cons_self poseA [])

end MsgAssembler
